import Mathlib

/-!
Verification of the trade-tracker metrics engine: the data model, the daily
metrics builder (`buildMetrics`), the drawdown computation
(`computeMaxDrawdown`), the win/loss statistics of `renderMetrics`
(profit factor, streaks) and the withdrawal recommender of
`renderWithdrawalSuggestion`, embedded shallowly with exact rational
arithmetic in place of JavaScript numbers.
-/

namespace TradeTracker

/-- The cashflow direction: `"deposit" | "withdrawal"`. -/
inductive CashflowType
  | deposit
  | withdrawal
  deriving DecidableEq

/-- The `Settings` record of the source. -/
structure Settings where
  startingCapital : ℚ
  dailyTargetPct : ℚ
  startDate : String
  targetGoal : ℚ
  deriving DecidableEq

/-- The `DayEntry` record: `actualClose` is `number | null`, hence `Option`. -/
structure DayEntry where
  id : String
  date : String
  actualClose : Option ℚ
  noTrade : Bool
  deriving DecidableEq

/-- The `Cashflow` record. -/
structure Cashflow where
  id : String
  date : String
  amount : ℚ
  type : CashflowType
  note : Option String
  deriving DecidableEq

/-- The rule of `WithdrawalSettings`. -/
inductive WithdrawalRule
  | profit_start
  | profit_hwm
  | goal_only
  deriving DecidableEq

/-- The `WithdrawalSettings` record. -/
structure WithdrawalSettings where
  rule : WithdrawalRule
  rate : ℚ
  buffer : ℚ
  deriving DecidableEq

/-- The `TrackerData` snapshot: `settings` may be `null`. -/
structure TrackerData where
  settings : Option Settings
  days : List DayEntry
  cashflows : List Cashflow
  withdrawal : WithdrawalSettings
  deriving DecidableEq

/-- The status union `"goal" | "green" | "neutral" | "red" | "pending"`. -/
inductive Status
  | goal
  | green
  | neutral
  | red
  | pending
  deriving DecidableEq

/-- The derived `DayMetrics` record, one per `DayEntry`. -/
structure DayMetrics where
  entry : DayEntry
  dayIndex : Nat
  targetStart : ℚ
  targetEnd : ℚ
  targetGain : ℚ
  netCashflow : ℚ
  tradingChange : Option ℚ
  tradingPct : Option ℚ
  status : Status
  equityValue : ℚ
  deriving DecidableEq

/-- The signed amount a cashflow contributes to its date's net:
`flow.type === "deposit" ? flow.amount : -flow.amount`. -/
def cashAmount (flow : Cashflow) : ℚ :=
  match flow.type with
  | CashflowType.deposit => flow.amount
  | CashflowType.withdrawal => -flow.amount

/-- `getNetCashflowForDate`: filter the cashflows whose date matches and
reduce the signed amounts from `0`. -/
def getNetCashflowForDate (cashflows : List Cashflow) (date : String) : ℚ :=
  (cashflows.filter fun flow => flow.date == date).foldl
    (fun sum flow => sum + cashAmount flow) 0

/-- The body of the `forEach` loop of `buildMetrics`: the metrics record
pushed for one entry, given the running start carried into this iteration. -/
def mkDayMetric (dailyTarget : ℚ) (cashflows : List Cashflow) (runningStart : ℚ)
    (index : Nat) (entry : DayEntry) : DayMetrics :=
  let targetStartValue := runningStart
  let targetEndValue := targetStartValue * (1 + dailyTarget)
  let targetGainValue := targetEndValue - targetStartValue
  let netCashflow := getNetCashflowForDate cashflows entry.date
  let tcs : Option ℚ × Option ℚ × Status :=
    if entry.noTrade then
      (some 0, some 0, Status.neutral)
    else
      match entry.actualClose with
      | some actualClose =>
        let tradingChange := actualClose - targetStartValue - netCashflow
        let tradingPct :=
          if targetStartValue > 0 then tradingChange / targetStartValue * 100 else 0
        let status :=
          if tradingChange ≥ targetGainValue then Status.goal
          else if tradingChange > 0 then Status.green
          else if tradingChange = 0 then Status.neutral
          else Status.red
        (some tradingChange, some tradingPct, status)
      | none => (none, none, Status.pending)
  { entry := entry
    dayIndex := index + 1
    targetStart := targetStartValue
    targetEnd := targetEndValue
    targetGain := targetGainValue
    netCashflow := netCashflow
    tradingChange := tcs.1
    tradingPct := tcs.2.1
    status := tcs.2.2
    equityValue :=
      match entry.actualClose with
      | some actualClose => actualClose
      | none =>
        if entry.noTrade then targetStartValue + netCashflow else targetStartValue }

/-- The update of `runningStart` at the end of one iteration of
`buildMetrics`: `actualClose` if present, else `targetStart + netCashflow`
when `noTrade`, else unchanged. -/
def nextRunningStart (cashflows : List Cashflow) (runningStart : ℚ)
    (entry : DayEntry) : ℚ :=
  match entry.actualClose with
  | some actualClose => actualClose
  | none =>
    if entry.noTrade then runningStart + getNetCashflowForDate cashflows entry.date
    else runningStart

/-- The `forEach` loop of `buildMetrics` as structural recursion over the
day list, carrying `runningStart` and the index. -/
def buildMetricsGo (dailyTarget : ℚ) (cashflows : List Cashflow) :
    ℚ → Nat → List DayEntry → List DayMetrics
  | _, _, [] => []
  | runningStart, index, entry :: rest =>
    mkDayMetric dailyTarget cashflows runningStart index entry ::
      buildMetricsGo dailyTarget cashflows
        (nextRunningStart cashflows runningStart entry) (index + 1) rest

/-- `buildMetrics`: empty when settings are absent, else the fold over the
day list starting from `startingCapital` with `dailyTarget = dailyTargetPct / 100`. -/
def buildMetrics (data : TrackerData) : List DayMetrics :=
  match data.settings with
  | none => []
  | some settings =>
    buildMetricsGo (settings.dailyTargetPct / 100) data.cashflows
      settings.startingCapital 0 data.days

/-- The realized outcome of a day, the value the compounding base rolls
forward to: actual close if present, else start plus net cashflow when
no-trade, else the unchanged start. -/
def realizedOutcome (m : DayMetrics) : ℚ :=
  match m.entry.actualClose with
  | some actualClose => actualClose
  | none => if m.entry.noTrade then m.targetStart + m.netCashflow else m.targetStart

lemma mkDayMetric_entry (dt : ℚ) (cf : List Cashflow) (rs : ℚ) (idx : Nat)
    (e : DayEntry) : (mkDayMetric dt cf rs idx e).entry = e := rfl

lemma mkDayMetric_targetStart (dt : ℚ) (cf : List Cashflow) (rs : ℚ) (idx : Nat)
    (e : DayEntry) : (mkDayMetric dt cf rs idx e).targetStart = rs := rfl

lemma mkDayMetric_netCashflow (dt : ℚ) (cf : List Cashflow) (rs : ℚ) (idx : Nat)
    (e : DayEntry) :
    (mkDayMetric dt cf rs idx e).netCashflow = getNetCashflowForDate cf e.date := rfl

lemma realizedOutcome_mkDayMetric (dt : ℚ) (cf : List Cashflow) (rs : ℚ)
    (idx : Nat) (e : DayEntry) :
    realizedOutcome (mkDayMetric dt cf rs idx e) = nextRunningStart cf rs e := by
  cases e with
  | mk i d ac nt => cases ac <;> cases nt <;> rfl

lemma chain'_buildMetricsGo (dt : ℚ) (cf : List Cashflow) (days : List DayEntry)
    (rs : ℚ) (idx : Nat) :
    List.Chain' (fun a b => b.targetStart = realizedOutcome a)
      (buildMetricsGo dt cf rs idx days) := by
  induction days generalizing rs idx with
  | nil => exact List.chain'_nil
  | cons e rest ih =>
    rw [buildMetricsGo]
    refine List.chain'_cons'.mpr ⟨?_, ih _ _⟩
    intro y hy
    cases rest with
    | nil => simp [buildMetricsGo] at hy
    | cons e2 t =>
      rw [buildMetricsGo] at hy
      simp only [List.head?_cons, Option.mem_def, Option.some.injEq] at hy
      subst hy
      rw [mkDayMetric_targetStart, realizedOutcome_mkDayMetric]

/-- The rolling invariant of `buildMetrics`, shared by the theorems below. -/
lemma chain'_buildMetrics (data : TrackerData) :
    List.Chain' (fun a b => b.targetStart = realizedOutcome a) (buildMetrics data) := by
  obtain ⟨s, days, cf, w⟩ := data
  cases s with
  | none => exact List.chain'_nil
  | some s => exact chain'_buildMetricsGo _ _ _ _ _

lemma exists_of_mem_buildMetricsGo (dt : ℚ) (cf : List Cashflow)
    (days : List DayEntry) (rs : ℚ) (idx : Nat) (m : DayMetrics)
    (hm : m ∈ buildMetricsGo dt cf rs idx days) :
    ∃ rs2 idx2 e, m = mkDayMetric dt cf rs2 idx2 e := by
  induction days generalizing rs idx with
  | nil => simp [buildMetricsGo] at hm
  | cons e rest ih =>
    rw [buildMetricsGo, List.mem_cons] at hm
    rcases hm with hm | hm
    · exact ⟨rs, idx, e, hm⟩
    · exact ih _ _ hm

lemma exists_of_mem_buildMetrics (data : TrackerData) (m : DayMetrics)
    (hm : m ∈ buildMetrics data) :
    ∃ dt cf rs idx e, m = mkDayMetric dt cf rs idx e := by
  obtain ⟨s, days, cf, w⟩ := data
  cases s with
  | none => simp [buildMetrics] at hm
  | some s =>
    obtain ⟨rs2, idx2, e, he⟩ := exists_of_mem_buildMetricsGo _ _ _ _ _ _ hm
    exact ⟨_, _, _, _, _, he⟩

lemma mkDayMetric_of_noTrade (dt : ℚ) (cf : List Cashflow) (rs : ℚ) (idx : Nat)
    (e : DayEntry) (h : e.noTrade = true) :
    (mkDayMetric dt cf rs idx e).status = Status.neutral ∧
      (mkDayMetric dt cf rs idx e).tradingChange = some 0 := by
  cases e with
  | mk i d ac nt =>
    cases nt with
    | false => simp at h
    | true => exact ⟨rfl, rfl⟩

/-- C1: in the metrics sequence produced by `buildMetrics`, the `targetStart`
of day i+1 equals the realized outcome of day i: the day's `actualClose` when
present, else `targetStart + netCashflow` when the day is flagged `noTrade`,
else the pending day's `targetStart` unchanged. -/
theorem buildMetrics_targetStart_rolls (data : TrackerData) :
    List.Chain' (fun a b => b.targetStart = realizedOutcome a) (buildMetrics data) :=
  chain'_buildMetrics data

/-- C4: a pending day (`noTrade = false`, `actualClose = null`) leaves the
running compounding base unchanged: the immediately following day's
`targetStart` equals the pending day's `targetStart`. -/
theorem pending_frame_targetStart (data : TrackerData) :
    List.Chain'
      (fun a b => a.entry.noTrade = false → a.entry.actualClose = none →
        b.targetStart = a.targetStart)
      (buildMetrics data) := by
  refine (chain'_buildMetrics data).imp ?_
  intro a b h h1 h2
  rw [h]
  simp [realizedOutcome, h1, h2]

/-- C8: when settings are absent, `buildMetrics` returns the empty metrics
sequence for every day list and cashflow list (the not-yet-configured state
is a valid, non-error input of the total function `buildMetrics`). -/
theorem buildMetrics_empty_of_no_settings (days : List DayEntry)
    (cashflows : List Cashflow) (w : WithdrawalSettings) :
    buildMetrics
      { settings := none, days := days, cashflows := cashflows, withdrawal := w } =
      [] := rfl

/-- A withdrawal policy used by the concrete inputs below. -/
def someWithdrawal : WithdrawalSettings :=
  { rule := WithdrawalRule.profit_hwm, rate := 50, buffer := 0 }

/-- A snapshot whose first day has `noTrade = true` together with a recorded
`actualClose` of 50, below the day's `targetStart` of 100. -/
def noTradeCloseData : TrackerData :=
  { settings := some
      { startingCapital := 100, dailyTargetPct := 0
        startDate := "2024-01-01", targetGoal := 200 }
    days :=
      [{ id := "d1", date := "2024-01-01", actualClose := some 50, noTrade := true },
       { id := "d2", date := "2024-01-02", actualClose := none, noTrade := false }]
    cashflows := []
    withdrawal := someWithdrawal }

/-- C2, counterexample: day 1 has `noTrade = true` (with `actualClose = 50`
also recorded), its net cashflow is 0, yet day 2's `targetStart` is 50, not
`targetStart + netCashflow = 100`: the rollover prefers `actualClose`. -/
theorem noTrade_rollforward_cex :
    ((buildMetrics noTradeCloseData).get ⟨0, by decide⟩).entry.noTrade = true ∧
      ((buildMetrics noTradeCloseData).get ⟨1, by decide⟩).targetStart ≠
        ((buildMetrics noTradeCloseData).get ⟨0, by decide⟩).targetStart +
          ((buildMetrics noTradeCloseData).get ⟨0, by decide⟩).netCashflow := by
  refine ⟨rfl, ?_⟩
  show (50 : ℚ) ≠ 100 + 0
  norm_num

/-- C2, amended: a `noTrade` day always yields `status = neutral` and
`tradingChange = 0`, and the compounding base advances by exactly
`netCashflow` only when the day's `actualClose` is absent; when an
`actualClose` is also recorded it takes precedence and the next day's
`targetStart` equals that close. -/
theorem noTrade_neutral_and_rollforward (data : TrackerData) :
    (∀ m ∈ buildMetrics data, m.entry.noTrade = true →
      m.status = Status.neutral ∧ m.tradingChange = some 0) ∧
    List.Chain'
      (fun a b => a.entry.noTrade = true →
        b.targetStart =
          match a.entry.actualClose with
          | some c => c
          | none => a.targetStart + a.netCashflow)
      (buildMetrics data) := by
  constructor
  · intro m hm hn
    obtain ⟨dt, cf, rs, idx, e, rfl⟩ := exists_of_mem_buildMetrics data m hm
    exact mkDayMetric_of_noTrade dt cf rs idx e (by rwa [mkDayMetric_entry] at hn)
  · refine (chain'_buildMetrics data).imp ?_
    intro a b h h1
    rw [h]
    cases hac : a.entry.actualClose with
    | none => simp [realizedOutcome, hac, h1]
    | some c => simp [realizedOutcome, hac]

lemma mkDayMetric_goal_iff (dt : ℚ) (cf : List Cashflow) (rs : ℚ) (idx : Nat)
    (e : DayEntry) (h : e.noTrade = false) :
    ((∃ c, (mkDayMetric dt cf rs idx e).tradingChange = some c ∧
        (mkDayMetric dt cf rs idx e).targetGain ≤ c) ↔
      (mkDayMetric dt cf rs idx e).status = Status.goal) := by
  cases e with
  | mk i d ac nt =>
    simp only at h
    subst h
    cases ac with
    | none => simp [mkDayMetric]
    | some a =>
      simp only [mkDayMetric, ge_iff_le]
      split_ifs with h1 h2 h3 <;> simp_all

/-- C3, counterexample: with `dailyTargetPct = 0` a `noTrade` day has
`tradingChange = 0 ≥ 0 = targetGain`, yet its status is `neutral`, not
`goal` — the equivalence fails when quantified over `noTrade` days. -/
def zeroTargetNoTradeData : TrackerData :=
  { settings := some
      { startingCapital := 100, dailyTargetPct := 0
        startDate := "2024-01-01", targetGoal := 200 }
    days :=
      [{ id := "d1", date := "2024-01-01", actualClose := none, noTrade := true }]
    cashflows := []
    withdrawal := someWithdrawal }

/-- C3, counterexample: the day's `tradingChange` is present and at least
`targetGain`, but its status is not `goal`. -/
theorem goal_iff_cex :
    (∃ c, ((buildMetrics zeroTargetNoTradeData).get ⟨0, by decide⟩).tradingChange =
        some c ∧
      ((buildMetrics zeroTargetNoTradeData).get ⟨0, by decide⟩).targetGain ≤ c) ∧
      ((buildMetrics zeroTargetNoTradeData).get ⟨0, by decide⟩).status ≠
        Status.goal := by
  refine ⟨⟨0, rfl, ?_⟩, by decide⟩
  show (100 : ℚ) * (1 + 0 / 100) - 100 ≤ 0
  norm_num

/-- C3, amended: on every day that is not flagged `noTrade` (settled or
pending), a present `tradingChange` at least `targetGain` is necessary and
sufficient for `status = goal`; `noTrade` days are classified `neutral`
outright even when `0 ≥ targetGain`. -/
theorem goal_status_iff (data : TrackerData) :
    ∀ m ∈ buildMetrics data, m.entry.noTrade = false →
      ((∃ c, m.tradingChange = some c ∧ m.targetGain ≤ c) ↔
        m.status = Status.goal) := by
  intro m hm h
  obtain ⟨dt, cf, rs, idx, e, rfl⟩ := exists_of_mem_buildMetrics data m hm
  exact mkDayMetric_goal_iff dt cf rs idx e (by rwa [mkDayMetric_entry] at h)

/-- The spec's first scenario: `startingCapital = 10000`, `dailyTargetPct = 1`,
one day with `actualClose = 10200` and no cashflows. -/
def goalScenarioData : TrackerData :=
  { settings := some
      { startingCapital := 10000, dailyTargetPct := 1
        startDate := "2024-01-01", targetGoal := 20000 }
    days :=
      [{ id := "d1", date := "2024-01-01", actualClose := some 10200, noTrade := false }]
    cashflows := []
    withdrawal := someWithdrawal }

/-- Witness for C3's amended theorem at the spec's goal scenario. -/
theorem goal_status_iff_witness :
    (∃ c, ((buildMetrics goalScenarioData).get ⟨0, by decide⟩).tradingChange =
        some c ∧
      ((buildMetrics goalScenarioData).get ⟨0, by decide⟩).targetGain ≤ c) ↔
      ((buildMetrics goalScenarioData).get ⟨0, by decide⟩).status = Status.goal :=
  goal_status_iff goalScenarioData _ (List.get_mem _ 0 (by decide)) rfl

/-- The equity resolution of `renderWithdrawalSuggestion` (and
`renderSummary`): the last metric with a non-null `actualClose`, found on the
reversed list, else `startingCapital`. -/
def computeEquity (settings : Settings) (metrics : List DayMetrics) : ℚ :=
  match metrics.reverse.find? fun m => m.entry.actualClose.isSome with
  | some lastActual => lastActual.entry.actualClose.getD settings.startingCapital
  | none => settings.startingCapital

/-- The high-water mark of `renderWithdrawalSuggestion`: a fold over the
metrics taking the max of every recorded `actualClose`, starting from
`startingCapital`. -/
def computeHighWaterMark (settings : Settings) (metrics : List DayMetrics) : ℚ :=
  metrics.foldl
    (fun highWaterMark m =>
      match m.entry.actualClose with
      | some actualClose => max highWaterMark actualClose
      | none => highWaterMark)
    settings.startingCapital

/-- The suggested amount computed by `renderWithdrawalSuggestion`:
`base * rate / 100` with `base` chosen by the configured rule. -/
def withdrawalSuggestion (settings : Settings) (w : WithdrawalSettings)
    (metrics : List DayMetrics) : ℚ :=
  let equity := computeEquity settings metrics
  let highWaterMark := computeHighWaterMark settings metrics
  let rate := w.rate / 100
  let base :=
    match w.rule with
    | WithdrawalRule.profit_start => max 0 (equity - settings.startingCapital)
    | WithdrawalRule.profit_hwm =>
      max 0 (equity - max settings.startingCapital (highWaterMark - w.buffer))
    | WithdrawalRule.goal_only => max 0 (equity - settings.targetGoal)
  base * rate

/-- The spec's wording of the equity source: the most recent day's reported
`actualClose`, scanning backward, written as direct recursion on the list. -/
def specLastClose : List DayMetrics → Option ℚ
  | [] => none
  | m :: rest => (specLastClose rest).or m.entry.actualClose

/-- The spec's wording: equity is the most recent non-null `actualClose`,
falling back to `startingCapital`. -/
def specEquity (settings : Settings) (metrics : List DayMetrics) : ℚ :=
  (specLastClose metrics).getD settings.startingCapital

/-- The spec's wording: the maximum `actualClose` seen across all days,
floored at `startingCapital`. -/
def specHighWaterMark (settings : Settings) (metrics : List DayMetrics) : ℚ :=
  (metrics.filterMap fun m => m.entry.actualClose).foldl max settings.startingCapital

lemma specLastClose_eq (metrics : List DayMetrics) :
    specLastClose metrics =
      (metrics.reverse.find? fun m => m.entry.actualClose.isSome).bind
        fun m => m.entry.actualClose := by
  induction metrics with
  | nil => rfl
  | cons m rest ih =>
    rw [specLastClose, ih, List.reverse_cons, List.find?_append]
    cases hf : rest.reverse.find? (fun m => m.entry.actualClose.isSome) with
    | some x =>
      have hx := List.find?_some hf
      cases hc : x.entry.actualClose with
      | none => rw [hc] at hx; simp at hx
      | some c => simp [Option.or, hc]
    | none =>
      cases hc : m.entry.actualClose with
      | none => simp [List.find?_cons, hc]
      | some c => simp [List.find?_cons, hc]

lemma computeEquity_eq_spec (settings : Settings) (metrics : List DayMetrics) :
    computeEquity settings metrics = specEquity settings metrics := by
  unfold computeEquity specEquity
  rw [specLastClose_eq metrics]
  cases hf : metrics.reverse.find? (fun m => m.entry.actualClose.isSome) with
  | none => rfl
  | some x =>
    have hx := List.find?_some hf
    cases hc : x.entry.actualClose with
    | none => rw [hc] at hx; simp at hx
    | some c => simp [hc]

lemma computeHighWaterMark_eq_spec (settings : Settings)
    (metrics : List DayMetrics) :
    computeHighWaterMark settings metrics = specHighWaterMark settings metrics := by
  unfold computeHighWaterMark specHighWaterMark
  induction metrics generalizing settings with
  | nil => rfl
  | cons m rest ih =>
    cases hc : m.entry.actualClose with
    | none =>
      simp only [List.foldl_cons, List.filterMap_cons, hc]
      exact ih settings
    | some c =>
      simp only [List.foldl_cons, List.filterMap_cons, hc]
      exact ih { settings with startingCapital := max settings.startingCapital c }

/-- C5: under rule `profit_hwm` the suggested withdrawal is
`max 0 (equity - max(startingCapital, highWaterMark - buffer)) * rate / 100`,
with equity the most recent non-null `actualClose` (else `startingCapital`)
and the high-water mark the maximum `actualClose` floored at
`startingCapital`, both as the spec words them. -/
theorem profit_hwm_suggestion (settings : Settings) (w : WithdrawalSettings)
    (metrics : List DayMetrics) (h : w.rule = WithdrawalRule.profit_hwm) :
    withdrawalSuggestion settings w metrics =
      max 0 (specEquity settings metrics -
          max settings.startingCapital
            (specHighWaterMark settings metrics - w.buffer)) *
        (w.rate / 100) := by
  simp [withdrawalSuggestion, h, computeEquity_eq_spec, computeHighWaterMark_eq_spec]

/-- The settings of the spec's `profit_hwm` scenario. -/
def scenarioSettings : Settings :=
  { startingCapital := 10000, dailyTargetPct := 1
    startDate := "2024-01-01", targetGoal := 20000 }

/-- The withdrawal policy of the spec's `profit_hwm` scenario:
rate 50, buffer 500. -/
def scenarioWithdrawal : WithdrawalSettings :=
  { rule := WithdrawalRule.profit_hwm, rate := 50, buffer := 500 }

/-- Days realizing a high-water mark of 12000 and a current equity of 11000. -/
def hwmScenarioData : TrackerData :=
  { settings := some scenarioSettings
    days :=
      [{ id := "d1", date := "2024-01-01", actualClose := some 12000, noTrade := false },
       { id := "d2", date := "2024-01-02", actualClose := some 11000, noTrade := false }]
    cashflows := []
    withdrawal := scenarioWithdrawal }

/-- Witness for C5 at the spec's scenario: `startingCapital = 10000`,
high-water mark 12000, buffer 500, equity 11000, rate 50 — the threshold is
11500, the base 0, and the suggestion 0. -/
theorem profit_hwm_scenario_witness :
    withdrawalSuggestion scenarioSettings scenarioWithdrawal
      (buildMetrics hwmScenarioData) = 0 := by
  rw [profit_hwm_suggestion scenarioSettings scenarioWithdrawal
    (buildMetrics hwmScenarioData) rfl]
  have he : specEquity scenarioSettings (buildMetrics hwmScenarioData) = 11000 := rfl
  have hh : specHighWaterMark scenarioSettings (buildMetrics hwmScenarioData) =
      max (max 10000 12000) 11000 := rfl
  rw [he, hh]
  rw [show scenarioWithdrawal.buffer = 500 from rfl,
    show scenarioWithdrawal.rate = 50 from rfl,
    show scenarioSettings.startingCapital = 10000 from rfl]
  norm_num [max_def]

/-- The completed days of `renderMetrics`: those with a non-null
`tradingChange`. -/
def completedMetrics (metrics : List DayMetrics) : List DayMetrics :=
  metrics.filter fun m => m.tradingChange.isSome

/-- The green days of `renderMetrics`: completed with
`(tradingChange ?? 0) > 0`. -/
def greenMetrics (metrics : List DayMetrics) : List DayMetrics :=
  (completedMetrics metrics).filter fun m => decide (m.tradingChange.getD 0 > 0)

/-- The red days of `renderMetrics`: completed with
`(tradingChange ?? 0) < 0`. -/
def redMetrics (metrics : List DayMetrics) : List DayMetrics :=
  (completedMetrics metrics).filter fun m => decide (m.tradingChange.getD 0 < 0)

/-- `totalGains` of `renderMetrics`: the greens reduced by
`sum + Math.max(tradingChange ?? 0, 0)` from `0`. -/
def totalGains (metrics : List DayMetrics) : ℚ :=
  (greenMetrics metrics).foldl (fun sum m => sum + max (m.tradingChange.getD 0) 0) 0

/-- `totalLosses` of `renderMetrics`: the reds reduced by
`sum + Math.abs(tradingChange ?? 0)` from `0`. -/
def totalLosses (metrics : List DayMetrics) : ℚ :=
  (redMetrics metrics).foldl (fun sum m => sum + |m.tradingChange.getD 0|) 0

/-- The profit factor of `renderMetrics`:
`totalLosses > 0 ? totalGains / totalLosses : totalGains > 0 ? Infinity : 0`,
with `none` standing for the infinite value. -/
def profitFactor (metrics : List DayMetrics) : Option ℚ :=
  if totalLosses metrics > 0 then some (totalGains metrics / totalLosses metrics)
  else if totalGains metrics > 0 then none
  else some 0

lemma foldl_add_nonneg (f : DayMetrics → ℚ) (hf : ∀ m, 0 ≤ f m)
    (l : List DayMetrics) :
    ∀ acc : ℚ, 0 ≤ acc → 0 ≤ l.foldl (fun sum m => sum + f m) acc := by
  induction l with
  | nil => exact fun acc h => h
  | cons m rest ih => exact fun acc h => ih _ (add_nonneg h (hf m))

lemma totalGains_nonneg (metrics : List DayMetrics) : 0 ≤ totalGains metrics :=
  foldl_add_nonneg (fun m => max (m.tradingChange.getD 0) 0)
    (fun _ => le_max_right _ _) _ 0 le_rfl

lemma totalLosses_nonneg (metrics : List DayMetrics) : 0 ≤ totalLosses metrics :=
  foldl_add_nonneg (fun m => |m.tradingChange.getD 0|)
    (fun _ => abs_nonneg _) _ 0 le_rfl

/-- A snapshot with a single losing day: close 90 against a start of 100. -/
def redDayData : TrackerData :=
  { settings := some
      { startingCapital := 100, dailyTargetPct := 0
        startDate := "2024-01-01", targetGoal := 200 }
    days :=
      [{ id := "d1", date := "2024-01-01", actualClose := some 90, noTrade := false }]
    cashflows := []
    withdrawal := someWithdrawal }

/-- C6, counterexample: with one losing day the profit factor is 0 although
the totals are not both 0 (`totalLosses = 10`): the "0 iff both totals are 0"
direction fails. -/
theorem profitFactor_zero_cex :
    profitFactor (buildMetrics redDayData) = some 0 ∧
      ¬(totalGains (buildMetrics redDayData) = 0 ∧
        totalLosses (buildMetrics redDayData) = 0) := by
  have hG : totalGains (buildMetrics redDayData) = 0 := by
    norm_num [totalGains, greenMetrics, completedMetrics, buildMetrics, redDayData,
      buildMetricsGo, mkDayMetric, getNetCashflowForDate]
  have hL : totalLosses (buildMetrics redDayData) = 10 := by
    norm_num [totalLosses, redMetrics, completedMetrics, buildMetrics, redDayData,
      buildMetricsGo, mkDayMetric, getNetCashflowForDate]
  refine ⟨?_, ?_⟩
  · rw [profitFactor, if_pos (by rw [hL]; norm_num), hG, hL]
    norm_num
  · rintro ⟨h1, h2⟩
    rw [hL] at h2
    norm_num at h2

/-- C6, amended: the profit factor is infinite iff total losses are 0 and
total gains are strictly positive; it is 0 iff total gains are 0 (the
losses may then be anything, since `0 / totalLosses = 0`). -/
theorem profitFactor_characterization (metrics : List DayMetrics) :
    (profitFactor metrics = none ↔
      totalLosses metrics = 0 ∧ totalGains metrics > 0) ∧
    (profitFactor metrics = some 0 ↔ totalGains metrics = 0) := by
  have hG := totalGains_nonneg metrics
  have hL := totalLosses_nonneg metrics
  unfold profitFactor
  by_cases hl : totalLosses metrics > 0
  · have hlne : totalLosses metrics ≠ 0 := ne_of_gt hl
    rw [if_pos hl]
    refine ⟨⟨fun h => by simp at h, fun h => absurd h.1 hlne⟩, ?_⟩
    constructor
    · intro h
      rcases div_eq_zero_iff.mp (Option.some_injective ℚ h) with h0 | h0
      · exact h0
      · exact absurd h0 hlne
    · intro h
      rw [h]
      simp
  · have hl0 : totalLosses metrics = 0 := le_antisymm (not_lt.mp hl) hL
    rw [if_neg hl]
    by_cases hg : totalGains metrics > 0
    · rw [if_pos hg]
      exact ⟨by simp [hl0, hg], by simp [ne_of_gt hg]⟩
    · have hg0 : totalGains metrics = 0 := le_antisymm (not_lt.mp hg) hG
      rw [if_neg hg]
      exact ⟨by simp [hg], by simp [hg0]⟩

/-- The peak update of `computeMaxDrawdown`: `if (value > peak) peak = value`. -/
def ddPeak (peak value : ℚ) : ℚ :=
  if value > peak then value else peak

/-- The drawdown of one value against the (already updated) peak:
`peak > 0 ? (peak - value) / peak : 0`. -/
def ddValue (peak value : ℚ) : ℚ :=
  if peak > 0 then (peak - value) / peak else 0

/-- The running maximum update:
`if (drawdown > maxDrawdown) maxDrawdown = drawdown`. -/
def ddMax (maxDrawdown drawdown : ℚ) : ℚ :=
  if drawdown > maxDrawdown then drawdown else maxDrawdown

/-- The `forEach` loop of `computeMaxDrawdown`, carrying the peak and the
maximum drawdown seen. -/
def computeMaxDrawdownGo : ℚ → ℚ → List ℚ → ℚ
  | _, maxDrawdown, [] => maxDrawdown
  | peak, maxDrawdown, value :: rest =>
    computeMaxDrawdownGo (ddPeak peak value)
      (ddMax maxDrawdown (ddValue (ddPeak peak value) value)) rest

/-- `computeMaxDrawdown`: the peak starts at `values[0] ?? 0`, the loop runs
over all values, and the result is reported as a percentage. -/
def computeMaxDrawdown (values : List ℚ) : ℚ :=
  computeMaxDrawdownGo (values.headD 0) 0 values * 100

lemma ddPeak_of_le {peak value : ℚ} (h : peak ≤ value) : ddPeak peak value = value := by
  unfold ddPeak
  by_cases hv : value > peak
  · rw [if_pos hv]
  · rw [if_neg hv]
    exact le_antisymm h (not_lt.mp hv)

lemma ddValue_self (value : ℚ) : ddValue value value = 0 := by
  unfold ddValue
  by_cases hv : value > 0
  · rw [if_pos hv, sub_self, zero_div]
  · rw [if_neg hv]

lemma ddMax_of_le {m d : ℚ} (h : d ≤ m) : ddMax m d = m :=
  if_neg (not_lt.mpr h)

lemma value_le_ddPeak (peak value : ℚ) : value ≤ ddPeak peak value := by
  unfold ddPeak
  by_cases hv : value > peak
  · rw [if_pos hv]
  · rw [if_neg hv]
    exact not_lt.mp hv

lemma ddValue_nonneg {peak value : ℚ} (h : value ≤ peak) : 0 ≤ ddValue peak value := by
  unfold ddValue
  by_cases hp : peak > 0
  · rw [if_pos hp]
    exact div_nonneg (sub_nonneg.mpr h) (le_of_lt hp)
  · rw [if_neg hp]

lemma ddValue_le_one {peak value : ℚ} (h : 0 ≤ value) : ddValue peak value ≤ 1 := by
  unfold ddValue
  by_cases hp : peak > 0
  · rw [if_pos hp, div_le_one hp]
    linarith
  · rw [if_neg hp]
    norm_num

lemma computeMaxDrawdownGo_of_chain (values : List ℚ) :
    ∀ peak m : ℚ, List.Chain' (· ≤ ·) values →
      (∀ x ∈ values.head?, peak ≤ x) → 0 ≤ m →
      computeMaxDrawdownGo peak m values = m := by
  induction values with
  | nil => exact fun _ m _ _ _ => rfl
  | cons v rest ih =>
    intro peak m hchain hhead hm
    have hpv : peak ≤ v := hhead v rfl
    obtain ⟨hnext, hrest⟩ := List.chain'_cons'.mp hchain
    rw [computeMaxDrawdownGo, ddPeak_of_le hpv, ddValue_self,
      ddMax_of_le hm]
    exact ih v m hrest hnext hm

lemma computeMaxDrawdownGo_scale (values : List ℚ) :
    ∀ (peak m c : ℚ), 0 < c →
      computeMaxDrawdownGo (c * peak) m (values.map fun v => c * v) =
        computeMaxDrawdownGo peak m values := by
  induction values with
  | nil => exact fun _ _ _ _ => rfl
  | cons v rest ih =>
    intro peak m c hc
    have hcne : c ≠ 0 := ne_of_gt hc
    have hpeak : ddPeak (c * peak) (c * v) = c * ddPeak peak v := by
      unfold ddPeak
      simp only [gt_iff_lt, mul_lt_mul_left hc, mul_ite]
    have hdd : ddValue (c * ddPeak peak v) (c * v) = ddValue (ddPeak peak v) v := by
      unfold ddValue
      have hiff : 0 < c * ddPeak peak v ↔ 0 < ddPeak peak v := by
        constructor
        · intro h
          by_contra hneg
          have : c * ddPeak peak v ≤ 0 :=
            mul_nonpos_of_nonneg_of_nonpos (le_of_lt hc) (not_lt.mp hneg)
          exact absurd h (not_lt.mpr this)
        · exact fun h => mul_pos hc h
      by_cases hp : ddPeak peak v > 0
      · rw [if_pos hp, if_pos (hiff.mpr hp), ← mul_sub, mul_div_mul_left _ _ hcne]
      · rw [if_neg hp, if_neg (fun h => hp (hiff.mp h))]
    rw [List.map_cons, computeMaxDrawdownGo, computeMaxDrawdownGo,
      hpeak, hdd]
    exact ih _ _ _ hc

/-- C7: `computeMaxDrawdown` returns 0 on every non-decreasing equity curve,
and is invariant under scaling the whole curve (anchor included) by any
positive constant. -/
theorem maxDrawdown_monotone_and_scale (values : List ℚ) :
    (List.Chain' (· ≤ ·) values → computeMaxDrawdown values = 0) ∧
    ∀ c : ℚ, 0 < c →
      computeMaxDrawdown (values.map fun v => c * v) = computeMaxDrawdown values := by
  constructor
  · intro hchain
    unfold computeMaxDrawdown
    cases values with
    | nil => rw [show computeMaxDrawdownGo (List.headD [] 0) 0 [] = 0 from rfl, zero_mul]
    | cons v rest =>
      rw [List.headD_cons,
        computeMaxDrawdownGo_of_chain (v :: rest) v 0 hchain
          (by intro x hx; rw [List.head?_cons, Option.mem_def, Option.some.injEq] at hx
              rw [hx])
          le_rfl,
        zero_mul]
  · intro c hc
    unfold computeMaxDrawdown
    cases values with
    | nil => rfl
    | cons v rest =>
      rw [List.map_cons, List.headD_cons, List.headD_cons, ← List.map_cons,
        computeMaxDrawdownGo_scale (v :: rest) v 0 c hc]

lemma computeMaxDrawdownGo_bounds (values : List ℚ) :
    ∀ peak m : ℚ, 0 ≤ m → m ≤ 1 → (∀ v ∈ values, 0 ≤ v) →
      0 ≤ computeMaxDrawdownGo peak m values ∧
        computeMaxDrawdownGo peak m values ≤ 1 := by
  induction values with
  | nil => exact fun _ m h0 h1 _ => ⟨h0, h1⟩
  | cons v rest ih =>
    intro peak m h0 h1 hnn
    have hv : 0 ≤ v := hnn v (List.mem_cons_self v rest)
    have hdd0 : 0 ≤ ddValue (ddPeak peak v) v :=
      ddValue_nonneg (value_le_ddPeak peak v)
    have hdd1 : ddValue (ddPeak peak v) v ≤ 1 := ddValue_le_one hv
    have hm0 : 0 ≤ ddMax m (ddValue (ddPeak peak v) v) := by
      unfold ddMax
      by_cases h : ddValue (ddPeak peak v) v > m
      · rw [if_pos h]; exact hdd0
      · rw [if_neg h]; exact h0
    have hm1 : ddMax m (ddValue (ddPeak peak v) v) ≤ 1 := by
      unfold ddMax
      by_cases h : ddValue (ddPeak peak v) v > m
      · rw [if_pos h]; exact hdd1
      · rw [if_neg h]; exact h1
    rw [computeMaxDrawdownGo]
    exact ih _ _ hm0 hm1 (fun x hx => hnn x (List.mem_cons_of_mem v hx))

/-- C10: `computeMaxDrawdown` is total, returns 0 on the empty curve, and on
every curve of non-negative values its percentage result lies in [0, 100]. -/
theorem maxDrawdown_bounds :
    computeMaxDrawdown ([] : List ℚ) = 0 ∧
    ∀ values : List ℚ, (∀ v ∈ values, 0 ≤ v) →
      0 ≤ computeMaxDrawdown values ∧ computeMaxDrawdown values ≤ 100 := by
  constructor
  · unfold computeMaxDrawdown
    rw [show computeMaxDrawdownGo (List.headD [] 0) 0 [] = 0 from rfl, zero_mul]
  · intro values hnn
    obtain ⟨h0, h1⟩ :=
      computeMaxDrawdownGo_bounds values (values.headD 0) 0 le_rfl
        (by norm_num) hnn
    unfold computeMaxDrawdown
    constructor
    · exact mul_nonneg h0 (by norm_num)
    · calc computeMaxDrawdownGo (values.headD 0) 0 values * 100
          ≤ 1 * 100 := mul_le_mul_of_nonneg_right h1 (by norm_num)
        _ = 100 := one_mul 100

/-- `goalStreak` of `renderMetrics`: the length of the trailing run of days
with status `"goal"`, counted from the most recent day backward. -/
def goalStreak (metrics : List DayMetrics) : Nat :=
  (metrics.reverse.takeWhile fun m => m.status == Status.goal).length

/-- `greenStreak` of `renderMetrics`: the length of the trailing run of days
with status `"goal"` or `"green"`. -/
def greenStreak (metrics : List DayMetrics) : Nat :=
  (metrics.reverse.takeWhile fun m =>
    m.status == Status.goal || m.status == Status.green).length

lemma length_takeWhile_le_of_imp {α : Type} (p q : α → Bool)
    (hpq : ∀ a, p a = true → q a = true) (l : List α) :
    (l.takeWhile p).length ≤ (l.takeWhile q).length := by
  induction l with
  | nil => exact le_rfl
  | cons a t ih =>
    cases hp : p a with
    | true =>
      rw [List.takeWhile_cons, if_pos hp, List.takeWhile_cons, if_pos (hpq a hp),
        List.length_cons, List.length_cons]
      exact Nat.succ_le_succ ih
    | false =>
      rw [List.takeWhile_cons, if_neg (by simp [hp])]
      exact Nat.zero_le _

/-- C9: the trailing goal streak never exceeds the trailing green streak,
since every `"goal"` day also satisfies the green-streak test. -/
theorem goalStreak_le_greenStreak (metrics : List DayMetrics) :
    goalStreak metrics ≤ greenStreak metrics :=
  length_takeWhile_le_of_imp _ _
    (fun m h => by rw [Bool.or_eq_true]; exact Or.inl h) metrics.reverse

end TradeTracker
